import Mathlib

/-!
Shallow embedding of the JS fallback CSV validator (`CsvProcessorJS` in
`src/www/src/App.jsx`, lines 23-97) together with proofs checking the
specification's claims against it.

Modelling conventions:
* JS strings are Lean `String`s (logically a list of `Char`).
* `String.prototype.split`, `join`, `trim` are modelled character-exactly
  on `List Char` (`splitOnC`, `joinC`, `trimJS`).
* JS numbers are modelled by `JSNumber`: NaN, the two infinities, or an
  exact rational.  `parseFloat` is modelled faithfully as a longest-prefix
  parse (leading whitespace skipped, optional sign, `Infinity`, decimal
  digits with optional fraction and exponent, trailing garbage ignored);
  finite values are exact rationals rather than IEEE doubles, which is
  faithful for every comparison appearing in the claims.
* JS objects used as dictionaries (`stats`, `examples`, `ruleMap`) are
  modelled as association lists in insertion order, with the JS truthiness
  tests (`!stats[c]`, `!examples[c][k]`) translated exactly: for the
  `examples` map the guard treats a stored empty string as unset.
* `JSON.parse(rulesJson)` is external glue per the spec (§1); the
  constructor takes the already-parsed rule list.
-/

namespace CsvV

/-- The JS `StrWhiteSpace ∪ LineTerminator` character class used by
`String.prototype.trim` and by `parseFloat`'s leading-whitespace skip. -/
def isJsWs (c : Char) : Bool :=
  let n := c.toNat
  (9 ≤ n && n ≤ 13) || n == 32 || n == 0xA0 || n == 0x1680 ||
  (0x2000 ≤ n && n ≤ 0x200A) || n == 0x2028 || n == 0x2029 ||
  n == 0x202F || n == 0x205F || n == 0x3000 || n == 0xFEFF

/-- `l.dropWhile`ing JS whitespace from the front: the left half of `trim`. -/
def trimL (l : List Char) : List Char := l.dropWhile isJsWs

/-- Dropping JS whitespace from the back: the right half of `trim`. -/
def trimR (l : List Char) : List Char := (l.reverse.dropWhile isJsWs).reverse

/-- JS `String.prototype.trim` on the character list. -/
def trimJS (l : List Char) : List Char := trimR (trimL l)

/-- JS `s.split(sep)` for a one-character separator: always returns at least
one (possibly empty) piece, exactly like the JS method. -/
def splitOnC (c : Char) : List Char → List (List Char)
  | [] => [[]]
  | a :: as =>
    match splitOnC c as with
    | [] => [[]]
    | h :: t => if a = c then [] :: h :: t else (a :: h) :: t

/-- JS `parts.join(sep)` for a one-character separator. -/
def joinC (c : Char) : List (List Char) → List Char
  | [] => []
  | [x] => x
  | x :: y :: t => x ++ c :: joinC c (y :: t)

/-- `split` lifted to `String`s. -/
def splitStr (c : Char) (s : String) : List String :=
  (splitOnC c s.data).map (fun f => (⟨f⟩ : String))

/-- `join` lifted to `String`s. -/
def joinStr (c : Char) (l : List String) : String :=
  ⟨joinC c (l.map String.data)⟩

/-- A JS number as far as this program can observe it: `parseFloat` results
are NaN, ±Infinity, or a finite value (modelled as an exact rational). -/
inductive JSNumber where
  | nan
  | posInf
  | negInf
  | finite (q : ℚ)
deriving DecidableEq

/-- Value of a digit string (most significant first). -/
def digitsToNat (ds : List Char) : ℕ :=
  ds.foldl (fun a c => a * 10 + (c.toNat - 48)) 0

/-- The exponent part of a `parseFloat` literal: the characters after the
`e`/`E`, i.e. an optional sign and then digits.  If there is no digit the
exponent part is not part of the parsed prefix, so it contributes 0. -/
def expVal (t : List Char) : Int :=
  let p : Bool × List Char :=
    match t with
    | '+' :: u => (false, u)
    | '-' :: u => (true, u)
    | _ => (false, t)
  let ds := p.2.takeWhile Char.isDigit
  if ds = [] then 0
  else if p.1 then -(digitsToNat ds : Int) else (digitsToNat ds : Int)

/-- `n * 10 ^ k` as an exact rational, for a possibly negative `k`.
(Only `mkRat` and integer arithmetic, so that closed facts about
`parseFloat` can be settled by kernel evaluation.) -/
def scaleByPow10 (n : Int) (k : Int) : ℚ :=
  if 0 ≤ k then mkRat (n * (10 ^ k.toNat : ℕ)) 1 else mkRat n (10 ^ (-k).toNat)

/-- JS `parseFloat`: skip leading whitespace, read an optional sign, then the
longest prefix that is `Infinity` or a decimal literal
(`digits [. digits] [e[sign]digits]`); anything after that prefix is
ignored.  If no such prefix exists the result is NaN. -/
def parseFloat (s : String) : JSNumber :=
  let cs := s.data.dropWhile isJsWs
  let sp : Bool × List Char :=
    match cs with
    | '+' :: t => (false, t)
    | '-' :: t => (true, t)
    | _ => (false, cs)
  let neg := sp.1
  let cs1 := sp.2
  if cs1.take 8 = "Infinity".data then
    if neg then JSNumber.negInf else JSNumber.posInf
  else
    let ip := cs1.takeWhile Char.isDigit
    let r1 := cs1.dropWhile Char.isDigit
    let fr : List Char × List Char :=
      match r1 with
      | '.' :: t => (t.takeWhile Char.isDigit, t.dropWhile Char.isDigit)
      | _ => ([], r1)
    let fp := fr.1
    let r2 := fr.2
    if ip = [] ∧ fp = [] then JSNumber.nan
    else
      let e : Int :=
        match r2 with
        | 'e' :: t => expVal t
        | 'E' :: t => expVal t
        | _ => 0
      let v : ℚ := scaleByPow10 (digitsToNat (ip ++ fp) : ℕ) (e - fp.length)
      JSNumber.finite (if neg then -v else v)

/-- JS `n < m` for a non-NaN `n` and a finite rule bound `m`. -/
def jsLtQ : JSNumber → ℚ → Bool
  | .nan, _ => false
  | .posInf, _ => false
  | .negInf, _ => true
  | .finite q, m => decide (q < m)

/-- JS `n > m` for a non-NaN `n` and a finite rule bound `m`. -/
def jsGtQ : JSNumber → ℚ → Bool
  | .nan, _ => false
  | .posInf, _ => true
  | .negInf, _ => false
  | .finite q, m => decide (m < q)

/-- The error-kind strings produced by `get_error_summary`
('Required', 'Not a Number', 'Min Value', 'Max Value', 'Invalid Email',
'Invalid Option'). -/
inductive ErrKind where
  | required
  | notANumber
  | minValue
  | maxValue
  | invalidEmail
  | invalidOption
deriving DecidableEq

/-- One rule object of the rule JSON (`type` discriminator plus its
type-specific fields). -/
inductive Rule where
  | notempty
  | number (min max : Option ℚ)
  | email
  | oneof (options : List String)
  | regex (pat : String)
deriving DecidableEq

/-- One element of the rule list: a column name and its rule chain. -/
structure ColRule where
  column : String
  rules : List Rule
deriving DecidableEq

/-- The `errType` computed by the rule dispatch in
`get_error_summary` (App.jsx lines 45-54) for one rule and one cell value.
Note there is no branch for `regex` rules, exactly as in the source. -/
def ruleError (r : Rule) (val : String) : Option ErrKind :=
  match r with
  | .notempty => if val = "" then some .required else none
  | .number mn mx =>
    let n := parseFloat val
    if n = .nan then some .notANumber
    else if (match mn with | some m => jsLtQ n m | none => false) then some .minValue
    else if (match mx with | some m => jsGtQ n m | none => false) then some .maxValue
    else none
  | .email => if '@' ∈ val.data then none else some .invalidEmail
  | .oneof opts => if val ∈ opts then none else some .invalidOption
  | .regex _ => none

/-- The parsed table plus rule list held by the JS fallback processor. -/
structure CsvProcessorJS where
  headers : List String
  records : List (List String)
  rules : List ColRule
deriving DecidableEq

/-- The constructor (App.jsx lines 24-31):
`rows = csvData.trim().split('\n').map(r => r.split(','))`,
`headers = rows[0]`, `records = rows.slice(1)`.  `rows` is never empty, so
`rows[0]` is never out of range; `headD` matches that.  The rule JSON is
taken already parsed (JSON decoding is UI glue, out of the engine per §1). -/
def CsvProcessorJS.init (csvData : String) (rules : List ColRule) : CsvProcessorJS :=
  let rows : List (List String) :=
    (splitOnC '\n' (trimJS csvData.data)).map
      (fun line => (splitOnC ',' line).map (fun f => (⟨f⟩ : String)))
  { headers := rows.headD [], records := rows.tail, rules := rules }

/-- `this.ruleMap[colName]`: the map is built by
`rules.forEach(r => ruleMap[r.column] = r.rules)`, so the LAST entry for a
column wins. -/
def ruleMapLookup (rs : List ColRule) (c : String) : Option (List Rule) :=
  (rs.reverse.find? (fun r => r.column == c)).map (fun r => r.rules)

/-- A triggered violation: column name, error kind, raw cell value. -/
abbrev Event := String × ErrKind × String

/-- The violations triggered by one cell (`val` at column index `i`): the
column's rules in declaration order.  A cell whose index is outside
`headers`, or whose column has no rules, produces nothing — exactly the
`if (!rules) return` of the source. -/
def cellEvents (headers : List String) (rs : List ColRule) (i : ℕ) (val : String) : List Event :=
  match headers.get? i with
  | none => []
  | some colName =>
    match ruleMapLookup rs colName with
    | none => []
    | some chain =>
      chain.filterMap (fun r => (ruleError r val).map (fun k => (colName, k, val)))

/-- The violations triggered while scanning one record, in the order the
nested `forEach` loops of `get_error_summary` visit them: cells left to
right (`colIdx`), then the column's rules in declaration order. -/
def rowEvents (headers : List String) (rs : List ColRule) (row : List String) : List Event :=
  row.enum.flatMap (fun p => cellEvents headers rs p.1 p.2)

/-- Generic association-list lookup (JS property read, first match — keys
are unique by construction so this is also the only match). -/
def alookup {α β : Type} [DecidableEq α] : List (α × β) → α → Option β
  | [], _ => none
  | (a, b) :: t, x => if a = x then some b else alookup t x

/-- `stats[col][errType] = (stats[col][errType] || 0) + 1` on the inner
object, appending new keys at the end (JS insertion order). -/
def bumpKind : List (ErrKind × ℕ) → ErrKind → List (ErrKind × ℕ)
  | [], k => [(k, 1)]
  | (k', n) :: t, k =>
    if k' = k then (k', n + 1) :: t else (k', n) :: bumpKind t k

/-- `if (!stats[colName]) stats[colName] = {}; stats[colName][errType]++`. -/
def bumpStat : List (String × List (ErrKind × ℕ)) → String → ErrKind → List (String × List (ErrKind × ℕ))
  | [], c, k => [(c, bumpKind [] k)]
  | (c', m) :: t, c, k =>
    if c' = c then (c', bumpKind m k) :: t else (c', m) :: bumpStat t c k

/-- `if (!examples[colName][errType]) examples[colName][errType] = val` on
the inner object: the JS truthiness guard treats a stored EMPTY STRING as
unset, so an empty-string example is overwritten. -/
def putKindExample : List (ErrKind × String) → ErrKind → String → List (ErrKind × String)
  | [], k, v => [(k, v)]
  | (k', x) :: t, k, v =>
    if k' = k then (if x = "" then (k', v) :: t else (k', x) :: t)
    else (k', x) :: putKindExample t k v

/-- `if (!examples[colName]) examples[colName] = {}` then the inner write. -/
def putExample : List (String × List (ErrKind × String)) → String → ErrKind → String → List (String × List (ErrKind × String))
  | [], c, k, v => [(c, putKindExample [] k v)]
  | (c', m) :: t, c, k, v =>
    if c' = c then (c', putKindExample m k v) :: t
    else (c', m) :: putExample t c k v

/-- The `{stats, examples, total_errors}` object returned by
`get_error_summary`. -/
structure Summary where
  stats : List (String × List (ErrKind × ℕ))
  examples : List (String × List (ErrKind × String))
  total : ℕ
deriving DecidableEq

/-- Lines 56-63 of the source: the state update for one triggered error. -/
def step (s : Summary) (e : Event) : Summary :=
  { stats := bumpStat s.stats e.1 e.2.1
    examples := putExample s.examples e.1 e.2.1 e.2.2
    total := s.total + 1 }

/-- The full event stream of one validation pass, in source visit order
(records outermost, cells, then rules). -/
def events (p : CsvProcessorJS) : List Event :=
  p.records.flatMap (rowEvents p.headers p.rules)

/-- `get_error_summary` (App.jsx lines 33-69): the nested
`records.forEach / row.forEach / rules.forEach` loops visit exactly the
events of `rowEvents` row by row and apply `step` to each in order, which
is the fold below. -/
def CsvProcessorJS.get_error_summary (p : CsvProcessorJS) : Summary :=
  (events p).foldl step { stats := [], examples := [], total := 0 }

/-- `count_total_errors` (App.jsx lines 94-96). -/
def CsvProcessorJS.count_total_errors (p : CsvProcessorJS) : ℕ :=
  p.get_error_summary.total

/-- `apply_bulk_fix` (App.jsx lines 71-81), restricted to its effect on the
table (the method's return value is `count_total_errors` of the result):
find the column's first index (`indexOf`, -1 when absent → no mutation),
then overwrite exactly the cells strictly equal to `findVal`. -/
def CsvProcessorJS.apply_bulk_fix (p : CsvProcessorJS) (colName findVal replaceVal : String) : CsvProcessorJS :=
  match p.headers.findIdx? (fun h => h == colName) with
  | none => p
  | some i =>
    { p with
      records := p.records.map (fun row =>
        if row[i]? = some findVal then row.set i replaceVal else row) }

/-- The `{valid, invalid}` pair returned by `generate_split_export`. -/
structure SplitExport where
  valid : String
  invalid : String
deriving DecidableEq

/-- `row.join(',')`. -/
def joinComma (row : List String) : String := joinStr ',' row

/-- `generate_split_export` (App.jsx lines 83-92): `valid` is the headers
line followed by EVERY record ("simplified logic" per the source comment);
`invalid` is only the headers line with `,Error_Reason` appended. -/
def CsvProcessorJS.generate_split_export (p : CsvProcessorJS) : SplitExport :=
  let valid := joinComma p.headers :: p.records.map joinComma
  let invalid := [joinComma p.headers ++ ",Error_Reason"]
  { valid := joinStr '\n' valid, invalid := joinStr '\n' invalid }

/-! ## Observation helpers (how the claims read the summary) -/

/-- `summary.stats[c][k]`, with a missing entry read as count 0. -/
def statCount (s : Summary) (c : String) (k : ErrKind) : ℕ :=
  ((alookup s.stats c).bind (fun m => alookup m k)).getD 0

/-- `summary.examples[c][k]` (absent entry = `none`). -/
def exampleOf (s : Summary) (c : String) (k : ErrKind) : Option String :=
  (alookup s.examples c).bind (fun m => alookup m k)

/-- The sum of all counts in `stats`. -/
def sumStats (s : Summary) : ℕ :=
  (s.stats.map (fun p => (p.2.map Prod.snd).sum)).sum

/-- The cell at record index `r`, column index `c` (JS `records[r][c]`,
`none` when out of range). -/
def cellAt (p : CsvProcessorJS) (r c : ℕ) : Option String :=
  (p.records[r]?).bind (fun row => row[c]?)

/-- The raw values of the events triggered for a (column, kind) pair, in
source visit order. -/
def eventVals (E : List Event) (c : String) (k : ErrKind) : List String :=
  (E.filter (fun e => e.1 = c ∧ e.2.1 = k)).map (fun e => e.2.2)

/-- The raw field values of the rows violating `(c, k)` during one pass of
`get_error_summary`, lowest row index first. -/
def violations (p : CsvProcessorJS) (c : String) (k : ErrKind) : List String :=
  eventVals (events p) c k

/-- The effect of one `examples[c][k]` write on the value stored in that
slot: `undefined` and `""` are both falsy, so both get overwritten. -/
def exampleStep (cur : Option String) (v : String) : Option String :=
  match cur with
  | none => some v
  | some x => if x = "" then some v else some x

/-- The example value the JS falsy-guarded first-wins update actually keeps
for a stream of violating values: the first non-empty value, or `""` when
every violating value is empty (and `none` when there is no violation). -/
def firstWinsJS (vals : List String) : Option String :=
  match vals.find? (fun v => v ≠ "") with
  | some v => some v
  | none => if vals.isEmpty then none else some ""

/-- Recognizer for `regex`-type rules. -/
def isRegexRule : Rule → Bool
  | .regex _ => true
  | _ => false

/-! ## Spec-side comparison definitions.  These follow the SPEC's words
(§3), not the source; they exist only to state, next to the source-derived
behaviour, what the spec asked for where the two disagree. -/

/-- Spec §3 `NotEmpty`: the field is empty after trimming. -/
def spec_emptyAfterTrim (v : String) : Bool := (trimJS v.data).isEmpty

/-- Spec §3 `Email`: exactly one `@` with non-empty local and domain parts. -/
def spec_emailShape (v : String) : Bool :=
  v.data.count '@' = 1 &&
  !(v.data.takeWhile (fun c => c ≠ '@')).isEmpty &&
  !((v.data.dropWhile (fun c => c ≠ '@')).tail).isEmpty

/-- Leftover after the exponent part: sign and at least one digit must be
consumable, otherwise the whole `e...` tail is leftover. -/
def expRest (t : List Char) : List Char :=
  let u := match t with
    | '+' :: w => w
    | '-' :: w => w
    | _ => t
  if (u.takeWhile Char.isDigit).isEmpty then 'e' :: t else u.dropWhile Char.isDigit

/-- Spec §3 `NumberRange` premise: the whole field (no leftover characters)
is a finite decimal literal `[sign] digits [. digits] [e [sign] digits]`. -/
def spec_entireFiniteNumber (v : String) : Bool :=
  let cs := v.data
  let cs1 := match cs with
    | '+' :: t => t
    | '-' :: t => t
    | _ => cs
  let ip := cs1.takeWhile Char.isDigit
  let r1 := cs1.dropWhile Char.isDigit
  let fr : List Char × List Char :=
    match r1 with
    | '.' :: t => (t.takeWhile Char.isDigit, t.dropWhile Char.isDigit)
    | _ => ([], r1)
  let r3 : List Char :=
    match fr.2 with
    | 'e' :: t => expRest t
    | 'E' :: t => expRest t
    | _ => fr.2
  !(ip.isEmpty && fr.1.isEmpty) && r3.isEmpty

/-- Spec §3 `Regex` whole-field match, instantiated at the source's default
pattern `^[a-z]+$`: a non-empty all-lowercase-ASCII field. -/
def spec_lowerAlphaWhole (v : String) : Bool :=
  !v.data.isEmpty && v.data.all (fun c => 'a' ≤ c && c ≤ 'z')

/-! ## Concrete tables used by the claims -/

/-- The rule set of the spec's §8 aggregation example (and of the app's
`SAMPLE_RULES`). -/
def sampleRules : List ColRule :=
  [⟨"name", [.notempty]⟩,
   ⟨"age", [.notempty, .number (some 18) (some 100)]⟩,
   ⟨"email", [.email]⟩,
   ⟨"role", [.oneof ["admin", "user", "guest"]]⟩]

/-- The spec's §8 table: headers `name,age,email,role`, records `(,abc,,x)`
and `(Bob,24,bob@example.com,user)`. -/
def sampleProc : CsvProcessorJS :=
  CsvProcessorJS.init "name,age,email,role\n,abc,,x\nBob,24,bob@example.com,user" sampleRules

/-- A one-column table whose `age` cells `""` then `"abc"` both fail the
number rule, the first with an empty raw value. -/
def firstWinsProc : CsvProcessorJS :=
  CsvProcessorJS.init "age\n\nabc" [⟨"age", [.number none none]⟩]

/-- A two-record table whose first record violates `name: NotEmpty`. -/
def splitProc : CsvProcessorJS :=
  CsvProcessorJS.init "name\n\nBob" [⟨"name", [.notempty]⟩]

/-- A one-record table ruled only by `regex "^[a-z]+$"` whose single cell
`"123"` does not match the pattern. -/
def regexProc : CsvProcessorJS :=
  CsvProcessorJS.init "code\n123" [⟨"code", [.regex "^[a-z]+$"]⟩]


/-! ## Claim C1 -/

/-- Claim C1 as frozen is FALSE on the source: for the §8 table and rules,
the code reports no `age.Required` (the value `"abc"` is non-empty, so the
`notempty` branch does not fire) and no `email.Required` (the empty email
cell is reported as `Invalid Email`), and `total_errors` is 4, not the
claimed five counts. -/
theorem sample_summary_claim_refuted :
    statCount sampleProc.get_error_summary "age" .required = 0 ∧
    statCount sampleProc.get_error_summary "email" .required = 0 ∧
    sampleProc.get_error_summary.total = 4 := by decide

/-- Claim C1 (amended): for the §8 table and rules the summary reports
exactly `name.Required = 1`, `age.NotANumber = 1`, `email.InvalidEmail = 1`,
`role.InvalidOption = 1` (each rule of a chain evaluated independently),
and `total_errors = 4`, the sum of all counts in `stats`. -/
theorem sample_summary_stats :
    sampleProc.get_error_summary.stats =
      [("name", [(.required, 1)]), ("age", [(.notANumber, 1)]),
       ("email", [(.invalidEmail, 1)]), ("role", [(.invalidOption, 1)])] ∧
    sampleProc.get_error_summary.total = 4 ∧
    sampleProc.get_error_summary.total = sumStats sampleProc.get_error_summary := by
  decide

/-! ## Claim C2, counterexample -/

/-- Claim C2 as frozen is FALSE on the source: in `firstWinsProc` the
violating values for `(age, NotANumber)` are `""` (row 0) then `"abc"`
(row 1), yet the recorded example is `"abc"`: the JS guard
`if (!examples[col][kind])` treats the stored empty string as unset and
overwrites it. -/
theorem example_first_wins_refuted :
    violations firstWinsProc "age" .notANumber = ["", "abc"] ∧
    exampleOf firstWinsProc.get_error_summary "age" .notANumber = some "abc" := by
  decide

/-! ## Claim C4 -/

/-- Claim C4 is violated by the source (a self-described "simple mock"):
`splitProc`'s first record triggers `name.Required` (total_errors = 1), yet
the valid export contains BOTH records and the invalid export contains no
record at all — only the `Error_Reason` header line. -/
theorem split_export_mock_eval :
    splitProc.get_error_summary.total = 1 ∧
    splitProc.generate_split_export.valid = "name\n\nBob" ∧
    splitProc.generate_split_export.invalid = "name,Error_Reason" := by
  decide

/-! ## Claim C6, counterexample -/

/-- Claim C6 as frozen is FALSE on the source: constructing the processor
from EMPTY input does not fail — there is no failure path at all — and a
(degenerate) table with a single empty header name and no records is
exposed to all subsequent operations. -/
theorem parse_empty_no_failure :
    CsvProcessorJS.init "" [] = ⟨[""], [], []⟩ := by decide

/-! ## Claim C7 -/

/-- Claim C7 as frozen is FALSE on the source: a whitespace-only field is
empty after trimming, yet the `notempty` check `!val` does not trim and
reports nothing for `" "`. -/
theorem notempty_whitespace_refuted :
    spec_emptyAfterTrim " " = true ∧ ruleError .notempty " " = none := by decide

/-- Claim C7 (amended): under a `NotEmpty` rule a `Required` violation is
reported iff the field is exactly the empty string — no trimming, so
whitespace-only fields are NOT reported. -/
theorem notempty_required_iff (v : String) :
    ruleError .notempty v = some .required ↔ v = "" := by
  by_cases h : v = "" <;> simp [ruleError, h]

/-! ## Claim C9 -/

/-- Claim C9 as frozen is FALSE on the source: `"@"` has exactly one `@`
but empty local and domain parts, so the spec calls it invalid, yet the
code's check `/@/.test(val)` accepts it and reports nothing. -/
theorem email_single_at_refuted :
    spec_emailShape "@" = false ∧ ruleError .email "@" = none := by decide

/-- Claim C9 (amended): under an `Email` rule an `InvalidEmail` violation
is reported iff the value contains NO `@` character at all; values with one
or more `@` pass regardless of empty parts or multiple `@`s. -/
theorem email_invalid_iff (v : String) :
    ruleError .email v = some .invalidEmail ↔ '@' ∉ v.data := by
  by_cases h : '@' ∈ v.data <;> simp [ruleError, h]

/-! ## Claim C8, counterexample -/

/-- Claim C8 as frozen is FALSE on the source: `"24abc"` does not parse as
a finite number in its entirety (trailing garbage), so the claim demands a
`NotANumber` violation, but `parseFloat` accepts the numeric prefix `24`,
which lies inside `[18, 100]`, and the code reports nothing. -/
theorem number_entire_parse_refuted :
    spec_entireFiniteNumber "24abc" = false ∧
    parseFloat "24abc" = .finite 24 ∧
    ruleError (.number (some 18) (some 100)) "24abc" = none := by decide

/-! ## Claim C10, counterexample -/

/-- Claim C10 as frozen is FALSE on the source: `regexProc`'s only cell
`"123"` does not match the whole-field pattern `^[a-z]+$`, yet the
validation pass reports nothing at all — empty stats, empty examples,
`total_errors = 0` (the aggregator has no branch for `regex` rules, and no
`PatternMismatch` kind exists in it). -/
theorem regex_violation_refuted :
    spec_lowerAlphaWhole "123" = false ∧
    regexProc.records = [["123"]] ∧
    regexProc.get_error_summary = ⟨[], [], 0⟩ := by decide


/-! ## List-level facts about the split/join/trim model -/

/-- `split` never returns an empty list of pieces (JS returns `['']` on
the empty string). -/
theorem splitOnC_ne_nil (c : Char) (l : List Char) : splitOnC c l ≠ [] := by
  cases l with
  | nil => simp [splitOnC]
  | cons a as =>
    simp only [splitOnC]
    cases h : splitOnC c as with
    | nil => simp
    | cons hd tl => by_cases hac : a = c <;> simp [hac]

/-- `pieces.join(sep)` undoes `s.split(sep)`. -/
theorem joinC_splitOnC (c : Char) (l : List Char) : joinC c (splitOnC c l) = l := by
  induction l with
  | nil => rfl
  | cons a as ih =>
    simp only [splitOnC]
    cases h : splitOnC c as with
    | nil => exact absurd h (splitOnC_ne_nil c as)
    | cons hd tl =>
      rw [h] at ih
      show joinC c (if a = c then [] :: hd :: tl else (a :: hd) :: tl) = a :: as
      by_cases hac : a = c
      · rw [if_pos hac]
        show [] ++ c :: joinC c (hd :: tl) = a :: as
        rw [List.nil_append, ih, hac]
      · rw [if_neg hac]
        cases tl with
        | nil =>
          show a :: hd = a :: as
          simp only [joinC] at ih
          rw [ih]
        | cons u v =>
          show (a :: hd) ++ c :: joinC c (u :: v) = a :: as
          simp only [joinC] at ih
          rw [List.cons_append, ih]

/-- Removing trailing whitespace either empties the list or keeps its
first element. -/
theorem trimR_head? (l : List Char) : trimR l = [] ∨ (trimR l).head? = l.head? := by
  show List.rdropWhile isJsWs l = [] ∨ (List.rdropWhile isJsWs l).head? = l.head?
  induction l using List.reverseRecOn with
  | nil => left; simp [List.rdropWhile]
  | append_singleton xs x ih =>
    by_cases h : isJsWs x
    · rw [List.rdropWhile_concat_pos _ _ _ h]
      rcases ih with h1 | h1
      · left; exact h1
      · rcases eq_or_ne xs [] with rfl | hne
        · left; simp [List.rdropWhile]
        · right
          rw [h1, List.head?_append]
          cases hx : xs.head? with
          | none => exact absurd (List.head?_eq_none_iff.mp hx) hne
          | some y => rfl
    · rw [List.rdropWhile_concat_neg _ _ _ h]
      right; rfl

/-- After a full trim, no further leading whitespace remains. -/
theorem trimL_trimJS (l : List Char) : trimL (trimJS l) = trimJS l := by
  show (trimR (trimL l)).dropWhile isJsWs = trimR (trimL l)
  rcases trimR_head? (trimL l) with h | h
  · rw [h]; rfl
  · cases hh : trimR (trimL l) with
    | nil => rfl
    | cons y t =>
      rw [hh] at h
      have hy : (List.dropWhile isJsWs l).head? = some y := h.symm
      have hw := List.head?_dropWhile_not isJsWs l
      rw [hy] at hw
      simp [List.dropWhile_cons, hw]

/-- JS `trim` is idempotent. -/
theorem trimJS_idem (l : List Char) : trimJS (trimJS l) = trimJS l := by
  show trimR (trimL (trimJS l)) = trimJS l
  rw [trimL_trimJS]
  show List.rdropWhile isJsWs (List.rdropWhile isJsWs (trimL l))
      = List.rdropWhile isJsWs (trimL l)
  exact List.rdropWhile_idempotent _ _

/-- Re-joining a parsed line with commas gives back the line. -/
theorem joinComma_parsedLine (line : List Char) :
    joinComma ((splitOnC ',' line).map (fun f => (⟨f⟩ : String))) = ⟨line⟩ := by
  show joinStr ',' _ = _
  unfold joinStr
  rw [List.map_map]
  rw [show (String.data ∘ fun f => (⟨f⟩ : String)) = id from rfl, List.map_id,
    joinC_splitOnC]

/-! ## Claim C3 -/

/-- Claim C3: round-trip.  For every raw text, parsing, serializing via the
`valid` output of `generate_split_export` (headers line followed by every
record, comma-joined, newline-joined) and re-parsing yields the same table
field-for-field.  (The serialization of a parsed table is literally the
trimmed raw text, and `trim` is idempotent; a parsed field can still
contain quote characters, which round-trip unchanged.) -/
theorem parse_serialize_roundtrip (raw : String) (rules : List ColRule) :
    CsvProcessorJS.init ((CsvProcessorJS.init raw rules).generate_split_export).valid rules
      = CsvProcessorJS.init raw rules := by
  have hvalid : ((CsvProcessorJS.init raw rules).generate_split_export).valid
      = ⟨trimJS raw.data⟩ := by
    unfold CsvProcessorJS.init CsvProcessorJS.generate_split_export
    cases hS : splitOnC '\n' (trimJS raw.data) with
    | nil => exact absurd hS (splitOnC_ne_nil _ _)
    | cons line rest =>
      simp only [List.map_cons, List.headD_cons, List.tail_cons]
      rw [List.map_map]
      have hmap : (joinComma ∘ fun l => (splitOnC ',' l).map (fun f => (⟨f⟩ : String)))
          = fun l => (⟨l⟩ : String) := by
        funext l
        exact joinComma_parsedLine l
      rw [hmap, joinComma_parsedLine]
      show joinStr '\n' ((line :: rest).map (fun l => (⟨l⟩ : String))) = _
      unfold joinStr
      rw [List.map_map,
        show (String.data ∘ fun l => (⟨l⟩ : String)) = id from rfl, List.map_id,
        ← hS, joinC_splitOnC]
  rw [hvalid]
  show CsvProcessorJS.init ⟨trimJS raw.data⟩ rules = CsvProcessorJS.init raw rules
  unfold CsvProcessorJS.init
  rw [show (⟨trimJS raw.data⟩ : String).data = trimJS raw.data from rfl, trimJS_idem]

/-! ## Claim C6, amended part -/

/-- Claim C6 (amended): the constructor never fails.  Empty raw input
yields the degenerate table with headers `[""]` and no records, and every
constructed table has at least one column (`split` never returns zero
pieces), so a zero-column table cannot arise either. -/
theorem parse_empty_and_min_columns (raw : String) (rules : List ColRule) :
    (CsvProcessorJS.init "" rules).headers = [""] ∧
    (CsvProcessorJS.init "" rules).records = [] ∧
    1 ≤ (CsvProcessorJS.init raw rules).headers.length := by
  refine ⟨rfl, rfl, ?_⟩
  unfold CsvProcessorJS.init
  cases hS : splitOnC '\n' (trimJS raw.data) with
  | nil => exact absurd hS (splitOnC_ne_nil _ _)
  | cons line rest =>
    simp only [List.map_cons, List.headD_cons]
    rw [List.length_map]
    exact Nat.succ_le_of_lt (List.length_pos.mpr (splitOnC_ne_nil ',' line))

/-! ## Claim C5 -/

/-- The pointwise effect of the bulk-fix row update on one cell. -/
theorem fixRow_getElem? (row : List String) (i c : ℕ) (f rep : String) :
    (if row[i]? = some f then row.set i rep else row)[c]?
      = if i = c ∧ row[c]? = some f then some rep else row[c]? := by
  by_cases hf : row[i]? = some f
  · rw [if_pos hf, List.getElem?_set]
    by_cases hic : i = c
    · subst hic
      obtain ⟨hlt, -⟩ := List.getElem?_eq_some_iff.mp hf
      rw [if_pos rfl, if_pos hlt, if_pos ⟨rfl, hf⟩]
    · rw [if_neg hic, if_neg (fun hc => hic hc.1)]
  · rw [if_neg hf]
    by_cases hic : i = c
    · subst hic
      rw [if_neg (fun hc => hf hc.2)]
    · rw [if_neg (fun hc => hic hc.1)]

/-- Claim C5: frame property of the bulk fix.  Headers and record count are
unchanged, every row keeps its length, a cell changes (to `replace`) iff it
sits at the column's first index (`indexOf`) and is strictly equal to
`find`, and a fix naming an unknown column leaves the processor completely
unchanged (and raises nothing — the operation is total). -/
theorem bulk_fix_frame (p : CsvProcessorJS) (col f rep : String) :
    ((p.apply_bulk_fix col f rep).headers = p.headers) ∧
    ((p.apply_bulk_fix col f rep).records.length = p.records.length) ∧
    (∀ r : ℕ, ((p.apply_bulk_fix col f rep).records[r]?).map (fun row : List String => row.length)
        = (p.records[r]?).map (fun row : List String => row.length)) ∧
    (∀ r c, cellAt (p.apply_bulk_fix col f rep) r c =
        if p.headers.findIdx? (fun h => h == col) = some c ∧ cellAt p r c = some f
        then some rep else cellAt p r c) ∧
    (col ∉ p.headers → p.apply_bulk_fix col f rep = p) := by
  unfold CsvProcessorJS.apply_bulk_fix
  cases hidx : p.headers.findIdx? (fun h => h == col) with
  | none =>
    refine ⟨rfl, rfl, fun r => rfl, fun r c => ?_, fun _ => rfl⟩
    rw [if_neg]
    rintro ⟨h1, -⟩
    cases h1
  | some i =>
    refine ⟨rfl, by simp, fun r => ?_, fun r c => ?_, fun hmem => ?_⟩
    · dsimp only
      rw [List.getElem?_map, Option.map_map]
      have hcomp : ((fun row : List String => row.length) ∘ fun row : List String =>
          if row[i]? = some f then row.set i rep else row)
          = (fun row : List String => row.length) := by
        funext row
        show (if row[i]? = some f then row.set i rep else row).length = row.length
        split <;> simp
      rw [hcomp]
    · simp only [cellAt]
      rw [List.getElem?_map]
      cases hrow : p.records[r]? with
      | none => simp
      | some row =>
        show (if row[i]? = some f then row.set i rep else row)[c]?
            = if some i = some c ∧ row[c]? = some f then some rep else row[c]?
        rw [fixRow_getElem?]
        exact if_congr (by simp) rfl rfl
    · exfalso
      have hnone : p.headers.findIdx? (fun h => h == col) = none := by
        rw [List.findIdx?_eq_none_iff]
        intro x hx
        cases hbe : x == col with
        | true => exact absurd (eq_of_beq hbe ▸ hx) hmem
        | false => rfl
      rw [hnone] at hidx
      cases hidx

/-- Witness for `bulk_fix_frame`: fixing the absent column `"zzz"` of the
sample table is a no-op. -/
theorem bulk_fix_frame_witness :
    sampleProc.apply_bulk_fix "zzz" "x" "user" = sampleProc :=
  (bulk_fix_frame sampleProc "zzz" "x" "user").2.2.2.2 (by decide)


/-! ## Claim C2, amended part: characterizing the stored examples -/

/-- One `putKindExample` write only touches its own key, where it acts as
`exampleStep` on the stored slot. -/
theorem alookup_putKindExample (m : List (ErrKind × String)) (k : ErrKind) (v : String)
    (k' : ErrKind) :
    alookup (putKindExample m k v) k' =
      if k = k' then exampleStep (alookup m k) v else alookup m k' := by
  induction m with
  | nil =>
    by_cases h : k = k' <;> simp [putKindExample, alookup, exampleStep, h]
  | cons a t ih =>
    obtain ⟨ka, xa⟩ := a
    by_cases hka : ka = k
    · subst hka
      by_cases hx : xa = ""
      · subst hx
        by_cases hk' : ka = k'
        · subst hk'
          simp [putKindExample, alookup, exampleStep]
        · simp [putKindExample, alookup, exampleStep, hk']
      · by_cases hk' : ka = k'
        · subst hk'
          simp [putKindExample, alookup, exampleStep, hx]
        · simp [putKindExample, alookup, exampleStep, hx, hk']
    · by_cases hk' : ka = k'
      · subst hk'
        have hkk' : ¬ k = ka := fun h => hka h.symm
        simp [putKindExample, alookup, hka, hkk']
      · simp [putKindExample, alookup, hka, hk', ih]

/-- One `putExample` write only touches its own (column, kind) slot, where
it acts as `exampleStep`. -/
theorem alookup2_putExample (ex : List (String × List (ErrKind × String))) (cn : String)
    (k : ErrKind) (v : String) (c' : String) (k' : ErrKind) :
    (alookup (putExample ex cn k v) c').bind (fun m => alookup m k')
      = if cn = c' ∧ k = k' then
          exampleStep ((alookup ex cn).bind (fun m => alookup m k)) v
        else (alookup ex c').bind (fun m => alookup m k') := by
  induction ex with
  | nil =>
    by_cases hc : cn = c'
    · subst hc
      by_cases hk : k = k'
      · subst hk
        simp [putExample, putKindExample, alookup, exampleStep]
      · simp [putExample, putKindExample, alookup, hk, exampleStep]
    · simp [putExample, putKindExample, alookup, hc]
  | cons a t ih =>
    obtain ⟨ca, ma⟩ := a
    by_cases hca : ca = cn
    · subst hca
      by_cases hc' : ca = c'
      · subst hc'
        simp [putExample, alookup, alookup_putKindExample]
      · have h2 : ¬ (ca = c' ∧ k = k') := fun h => hc' h.1
        simp [putExample, alookup, hc', h2]
    · have hcn : ¬ cn = ca := fun h => hca h.symm
      by_cases hc' : ca = c'
      · subst hc'
        have h2 : ¬ (cn = ca ∧ k = k') := fun h => hcn h.1
        simp [putExample, alookup, hca, hcn, h2]
      · simp [putExample, alookup, hca, hc', ih]

/-- `eventVals` on a cons. -/
theorem eventVals_cons (e : Event) (E : List Event) (c : String) (k : ErrKind) :
    eventVals (e :: E) c k
      = if e.1 = c ∧ e.2.1 = k then e.2.2 :: eventVals E c k else eventVals E c k := by
  by_cases he : e.1 = c ∧ e.2.1 = k <;> simp [eventVals, List.filter_cons, he]

/-- Folding `step` over an event stream drives each (column, kind) example
slot through `exampleStep` on exactly that slot's values, in stream
order. -/
theorem exampleOf_foldl (E : List Event) (s : Summary) (c : String) (k : ErrKind) :
    (alookup ((E.foldl step s).examples) c).bind (fun m => alookup m k)
      = List.foldl exampleStep
          ((alookup s.examples c).bind (fun m => alookup m k)) (eventVals E c k) := by
  induction E generalizing s with
  | nil => rfl
  | cons e E ih =>
    rw [show (e :: E).foldl step s = E.foldl step (step s e) from rfl, ih (step s e),
      eventVals_cons]
    by_cases he : e.1 = c ∧ e.2.1 = k
    · obtain ⟨h1, h2⟩ := he
      rw [if_pos ⟨h1, h2⟩, List.foldl_cons]
      congr 1
      show (alookup (putExample s.examples e.1 e.2.1 e.2.2) c).bind (fun m => alookup m k)
          = exampleStep ((alookup s.examples c).bind (fun m => alookup m k)) e.2.2
      rw [alookup2_putExample, if_pos ⟨h1, h2⟩, h1, h2]
    · rw [if_neg he]
      congr 1
      show (alookup (putExample s.examples e.1 e.2.1 e.2.2) c).bind (fun m => alookup m k)
          = (alookup s.examples c).bind (fun m => alookup m k)
      rw [alookup2_putExample, if_neg he]

/-- Folding `exampleStep` from a non-empty slot keeps a non-empty value and
replaces an empty one by the first non-empty newcomer. -/
theorem foldl_exampleStep_some (vals : List String) (x : String) :
    List.foldl exampleStep (some x) vals
      = some (if x = "" then ((vals.find? (fun v => v ≠ "")).getD "") else x) := by
  induction vals generalizing x with
  | nil => by_cases hx : x = "" <;> simp [hx]
  | cons v t ih =>
    rw [List.foldl_cons]
    by_cases hx : x = ""
    · subst hx
      rw [show exampleStep (some "") v = some v from by simp [exampleStep], ih v]
      by_cases hv : v = ""
      · subst hv
        simp [List.find?_cons_of_neg]
      · simp [List.find?_cons_of_pos, hv]
    · rw [show exampleStep (some x) v = some x from by simp [exampleStep, hx], ih x]
      simp [hx]

/-- Folding `exampleStep` from an empty slot realizes `firstWinsJS`. -/
theorem foldl_exampleStep_none (vals : List String) :
    List.foldl exampleStep none vals = firstWinsJS vals := by
  cases vals with
  | nil => rfl
  | cons v t =>
    rw [List.foldl_cons, show exampleStep none v = some v from rfl,
      foldl_exampleStep_some]
    by_cases hv : v = ""
    · subst hv
      rw [if_pos rfl]
      unfold firstWinsJS
      rw [List.find?_cons_of_neg _ (by simp)]
      cases hf : t.find? (fun v => decide ¬v = "") with
      | none => simp
      | some w => simp

    · rw [if_neg hv]
      unfold firstWinsJS
      rw [List.find?_cons_of_pos _ (by simpa using hv)]

/-- Claim C2 (amended): the example recorded for a (column, kind) pair is
the raw value of the lowest-row-index violating row WHOSE VALUE IS
NON-EMPTY; if every violating value is the empty string the example is
`""`, and when no row violates, no example is stored.  In particular a
recorded empty-string example is overwritten by the next non-empty
violating value (the JS guard treats `""` as unset); for any violating
stream whose first value is non-empty the original first-wins wording
holds. -/
theorem examples_first_nonempty (p : CsvProcessorJS) (c : String) (k : ErrKind) :
    exampleOf p.get_error_summary c k = firstWinsJS (violations p c k) := by
  show (alookup ((List.foldl step ⟨[], [], 0⟩ (events p)).examples) c).bind
      (fun m => alookup m k) = _
  rw [show List.foldl step ⟨[], [], 0⟩ (events p) = (events p).foldl step ⟨[], [], 0⟩ from rfl,
    exampleOf_foldl (events p) ⟨[], [], 0⟩ c k]
  show List.foldl exampleStep none (eventVals (events p) c k) = _
  rw [foldl_exampleStep_none]
  rfl

/-! ## Claim C10, amended part -/

/-- Rules of `regex` type never produce an error kind. -/
theorem ruleError_regex (r : Rule) (h : isRegexRule r = true) (val : String) :
    ruleError r val = none := by
  cases r <;> simp_all [isRegexRule, ruleError]

/-- Claim C10 (amended): `regex` rules contribute NO violations at all: a
table all of whose rules are `regex` rules produces the empty summary —
empty `stats`, empty `examples`, `total_errors = 0`.  (The aggregator has
no branch for the `regex` type and no `PatternMismatch` kind exists.) -/
theorem regex_rules_no_errors (p : CsvProcessorJS)
    (h : ∀ cr ∈ p.rules, ∀ r ∈ cr.rules, isRegexRule r = true) :
    p.get_error_summary = ⟨[], [], 0⟩ := by
  have hev : events p = [] := by
    unfold events
    rw [List.flatMap_eq_nil_iff]
    intro row hrow
    unfold rowEvents
    rw [List.flatMap_eq_nil_iff]
    intro pr hpr
    unfold cellEvents
    split
    · rfl
    rename_i colName hcol
    split
    · rfl
    rename_i chain hmap
    rw [List.filterMap_eq_nil_iff]
    intro r hr
    have hfind : ∃ cr, p.rules.reverse.find? (fun cr => cr.column == colName)
        = some cr ∧ cr.rules = chain := by
      unfold ruleMapLookup at hmap
      cases hf : p.rules.reverse.find? (fun cr => cr.column == colName) with
      | none => rw [hf] at hmap; cases hmap
      | some cr =>
        rw [hf] at hmap
        exact ⟨cr, rfl, Option.some.inj hmap⟩
    obtain ⟨cr, hf1, hf2⟩ := hfind
    have hcr : cr ∈ p.rules := List.mem_reverse.mp (List.mem_of_find?_eq_some hf1)
    have hreg : isRegexRule r = true := h cr hcr r (hf2 ▸ hr)
    rw [ruleError_regex r hreg]
    rfl
  show (events p).foldl step ⟨[], [], 0⟩ = _
  rw [hev]
  rfl

/-- Witness for `regex_rules_no_errors`: the concrete regex-ruled table
produces the empty summary. -/
theorem regex_rules_no_errors_witness :
    regexProc.get_error_summary = ⟨[], [], 0⟩ :=
  regex_rules_no_errors regexProc (by decide)


/-! ## Claim C8, amended part -/

/-- Claim C8 (amended): under a `NumberRange{min?, max?}` rule,
`NotANumber` is reported iff `parseFloat` yields NaN — a prefix-based
parse, so trailing garbage after a numeric prefix is accepted and
`Infinity` parses as an infinite value that is NOT `NotANumber`.
Otherwise, at most one of `MinValue`/`MaxValue` is reported by the
else-if chain: `MinValue` iff `min` is present and the parsed value is
strictly below it, and `MaxValue` iff no `MinValue` fired, `max` is
present and the parsed value is strictly above it.  Both bounds are
inclusive (a value equal to the bound passes) and independently
optional. -/
theorem number_rule_characterization (v : String) (mn mx : Option ℚ) (q m M : ℚ) :
    (ruleError (.number mn mx) v = some .notANumber ↔ parseFloat v = .nan) ∧
    (mn = none → ruleError (.number mn mx) v ≠ some .minValue) ∧
    (mx = none → ruleError (.number mn mx) v ≠ some .maxValue) ∧
    (parseFloat v = .finite q → mn = some m →
      (ruleError (.number mn mx) v = some .minValue ↔ q < m)) ∧
    (parseFloat v = .finite q → mn = some m → mx = some M → ¬ q < m →
      (ruleError (.number mn mx) v = some .maxValue ↔ M < q)) ∧
    (parseFloat v = .finite q → mn = none → mx = some M →
      (ruleError (.number mn mx) v = some .maxValue ↔ M < q)) ∧
    (parseFloat v = .finite q → mn = some q → ruleError (.number mn mx) v ≠ some .minValue) ∧
    (parseFloat v = .finite q → mx = some q → ruleError (.number mn mx) v ≠ some .maxValue) ∧
    (parseFloat v = .posInf → ruleError (.number mn mx) v ≠ some .notANumber) := by
  have hre : ruleError (.number mn mx) v =
      if parseFloat v = .nan then some .notANumber
      else if (match mn with | some m => jsLtQ (parseFloat v) m | none => false)
        then some .minValue
      else if (match mx with | some m => jsGtQ (parseFloat v) m | none => false)
        then some .maxValue
      else none := rfl
  refine ⟨?_, ?_, ?_, ?_, ?_, ?_, ?_, ?_, ?_⟩
  · rw [hre]
    by_cases hn : parseFloat v = .nan
    · simp [hn]
    · rw [if_neg hn]
      constructor
      · intro hco
        split_ifs at hco <;> simp_all
      · intro hco
        exact absurd hco hn
  · rintro rfl hco
    rw [hre] at hco
    split_ifs at hco <;> simp_all
  · rintro rfl hco
    rw [hre] at hco
    split_ifs at hco <;> simp_all
  · intro hpf hmn
    subst hmn
    rw [hre, hpf]
    rw [if_neg (by simp)]
    by_cases hlt : q < m
    · rw [if_pos (by simpa [jsLtQ] using hlt)]
      simp [hlt]
    · rw [if_neg (by simpa [jsLtQ] using hlt)]
      constructor
      · intro hco
        split_ifs at hco
        simp_all
      · intro hco
        exact absurd hco hlt
  · intro hpf hmn hmx hnlt
    subst hmn
    subst hmx
    rw [hre, hpf]
    rw [if_neg (by simp), if_neg (by simpa [jsLtQ] using hnlt)]
    by_cases hgt : M < q
    · rw [if_pos (by simpa [jsGtQ] using hgt)]
      simp [hgt]
    · rw [if_neg (by simpa [jsGtQ] using hgt)]
      simp [hgt]
  · intro hpf hmn hmx
    subst hmn
    subst hmx
    rw [hre, hpf]
    rw [if_neg (by simp), if_neg (by simp)]
    by_cases hgt : M < q
    · rw [if_pos (by simpa [jsGtQ] using hgt)]
      simp [hgt]
    · rw [if_neg (by simpa [jsGtQ] using hgt)]
      simp [hgt]
  · intro hpf hmn
    subst hmn
    rw [hre, hpf]
    rw [if_neg (by simp), if_neg (by simp [jsLtQ])]
    intro hco
    split_ifs at hco
    simp_all
  · intro hpf hmx
    subst hmx
    rw [hre, hpf]
    rw [if_neg (by simp)]
    intro hco
    split_ifs at hco <;> simp_all [jsGtQ]
  · intro hpf hco
    rw [hre, hpf] at hco
    rw [if_neg (by simp)] at hco
    split_ifs at hco <;> simp_all

/-- Witness for `number_rule_characterization`: the value `"17"` is exactly
the inclusive lower bound 17 and is not flagged `MinValue`; `"Infinity"`
parses to an infinite value and is not flagged `NotANumber`. -/
theorem number_rule_characterization_witness :
    ruleError (.number (some 17) (some 100)) "17" ≠ some .minValue ∧
    ruleError (.number (some 18) (some 100)) "Infinity" ≠ some .notANumber := by
  constructor
  · exact (number_rule_characterization "17" (some 17) (some 100) 17 17 100).2.2.2.2.2.2.1
      (by decide) rfl
  · exact (number_rule_characterization "Infinity" (some 18) (some 100) 0 18 100).2.2.2.2.2.2.2.2
      (by decide)

end CsvV
